import Mathlib

/-! lightningstream: the `sync` command (`cmd/lightningstream/commands/sync.go`)

A shallow embedding of `runSync` and proofs about its three stages:
the marker-file wait (lines 43-62), the syncer spawn loop with its
`errgroup` (lines 64-83, 98) and the health/HTTP step (lines 85-95).

`runSync` only talks to collaborators (storage backend, `syncer`, `healthz`,
`status`, `errgroup`).  Their answers are fields of `Env`; every call that
`runSync` makes is recorded, in program order, as an `Event` of the trace.
-/

namespace Lightningstream

/-! ## Data model -/

/-- Go `error` values, as far as `runSync` tells them apart.  A nil error is
`none : Option GoError`. -/
inductive GoError where
  /-- The value `context.Canceled`. -/
  | contextCanceled
  /-- An error for which `os.IsNotExist` answers true. -/
  | notExist (tag : Nat)
  /-- Any other error. -/
  | failure (tag : Nat)
  deriving DecidableEq, Repr

/-- The test `os.IsNotExist(err)` of line 51. -/
def isNotExist : GoError → Bool
  | .notExist _ => true
  | _ => false

/-- Severity of a `logrus` call. -/
inductive Level where
  | debug
  | info
  | error
  deriving DecidableEq, Repr

/-- The log lines `runSync` can write, one constructor per call site. -/
inductive Msg where
  /-- Line 40. -/
  | storageInitialised
  /-- Line 45. -/
  | waitingForMarkerToBePresent
  /-- Line 48. -/
  | markerFound
  /-- Line 52. -/
  | unableToCheckStorage (err : GoError)
  /-- Line 56. -/
  | waitingForMarker
  /-- Line 76. -/
  | syncCancelled (db : String)
  /-- Line 79. -/
  | syncFailed (db : String) (err : GoError)
  /-- Line 94. -/
  | notStartingHTTPServer
  /-- Line 97. -/
  | allSyncersRunning
  deriving DecidableEq, Repr

/-- One observable action of a run. -/
inductive Event where
  /-- The call `simpleblob.GetBackend` (line 36). -/
  | getBackend
  /-- The call `status.SetStorage` (line 41). -/
  | setStorage
  /-- The call `st.Load(ctx, name)` (line 47). -/
  | load (name : String)
  /-- The call `utils.SleepContext(ctx, d)` (line 58). -/
  | sleepContext (d : Nat)
  /-- The call `syncer.New(name, ...)` (line 66). -/
  | syncerNew (name : String)
  /-- The call `eg.Go(...)` for the unit `name` (line 72): its task is spawned. -/
  | go (name : String)
  /-- The task of unit `name` has returned `err` to the errgroup. -/
  | done (name : String) (err : Option GoError)
  /-- The call `healthz.AddBuildInfo` (line 85). -/
  | addBuildInfo
  /-- The call `os.Hostname` (line 86). -/
  | osHostname
  /-- The call `healthz.SetMeta(key, val)` (lines 87, 89). -/
  | setMeta (key val : String)
  /-- The call `status.StartHTTPServer(conf)` (line 92). -/
  | startHTTPServer
  /-- The call `eg.Wait()` (line 98). -/
  | wait
  /-- The deferred `cancel()` of line 30, run when `runSync` returns. -/
  | cancel
  /-- A `logrus` call. -/
  | log (lvl : Level) (msg : Msg)
  deriving DecidableEq, Repr

/-- An event is a storage `Load`. -/
def Event.isLoad : Event → Bool
  | .load _ => true
  | _ => false

/-- An event is a `SleepContext`. -/
def Event.isSleep : Event → Bool
  | .sleepContext _ => true
  | _ => false

/-- An event is a `syncer.New`. -/
def Event.isSyncerNew : Event → Bool
  | .syncerNew _ => true
  | _ => false

/-- An event is an `eg.Go`. -/
def Event.isGo : Event → Bool
  | .go _ => true
  | _ => false

/-- An event is the termination of a task. -/
def Event.isDone : Event → Bool
  | .done _ _ => true
  | _ => false

/-- An event is a log line. -/
def Event.isLog : Event → Bool
  | .log _ _ => true
  | _ => false

/-- An event belongs to the health step of lines 85-95. -/
def Event.isLiveness : Event → Bool
  | .addBuildInfo => true
  | .osHostname => true
  | .setMeta _ _ => true
  | .startHTTPServer => true
  | _ => false

/-- The units for which `eg.Go` was called, in spawn order. -/
def goNames : List Event → List String
  | [] => []
  | .go name :: rest => name :: goNames rest
  | _ :: rest => goNames rest

/-- The units whose task is known to have terminated, in observation order. -/
def doneNames : List Event → List String
  | [] => []
  | .done name _ :: rest => name :: doneNames rest
  | _ :: rest => doneNames rest

/-- The fields of the package variable `conf` that `runSync` reads.  `LMDBs`
is a Go map; the list holds its keys in the order in which the `range` of
line 65 happens to visit them. -/
structure Config where
  OnlyOnce : Bool
  StorageType : String
  StoragePollInterval : Nat
  LMDBs : List String

/-- Everything `runSync` reads from outside: the two flag variables, `conf`,
`version`, and the answers of the collaborators it calls. -/
structure Env where
  /-- The flag variable `onlyOnce` (`--only-once`). -/
  onlyOnce : Bool
  /-- The flag variable `markerFile` (`--wait-for-marker-file`). -/
  markerFile : String
  /-- The package variable `conf` when `runSync` starts. -/
  conf : Config
  /-- The package variable `version`. -/
  version : String
  /-- Error of `simpleblob.GetBackend`. -/
  getBackend : Option GoError
  /-- Error of the `k`-th call (from 0) of `st.Load(ctx, name)`. -/
  load : String → Nat → Option GoError
  /-- Error of the `k`-th call (from 0) of `utils.SleepContext`. -/
  sleepContext : Nat → Option GoError
  /-- Error of `syncer.New(name, ...)`. -/
  syncerNew : String → Option GoError
  /-- Error with which `s.Sync(ctx)` of the unit `name` returns. -/
  sync : String → Option GoError
  /-- When the task of a unit returns; only the order matters. -/
  finishTime : String → Nat
  /-- Result of `os.Hostname()`, `none` when it fails. -/
  hostname : Option String

/-- Lines 32-34: the flag can only switch `conf.OnlyOnce` on. -/
def applyOnlyOnce (env : Env) : Config :=
  if env.onlyOnce then { env.conf with OnlyOnce := true } else env.conf

/-! ## The marker-file wait (lines 43-62) -/

/-- The `for` loop of lines 46-61, started at its `k`-th pass.  The loop has
no bound, so the model takes the number of passes it may make; `none` means
the loop is still polling after that many. Returns the error `runSync`
returns from inside the loop (`none` after `break`) and the events. -/
def pollMarker (env : Env) (conf : Config) : Nat → Nat → Option (Option GoError × List Event)
  | 0, _ => none
  | fuel + 1, k =>
    match env.load env.markerFile k with
    | none => some (none, [.load env.markerFile, .log .info .markerFound])
    | some err =>
      let evs : List Event :=
        .load env.markerFile ::
          ((if !isNotExist err then [Event.log .error (.unableToCheckStorage err)] else []) ++
            [.log .debug .waitingForMarker, .sleepContext conf.StoragePollInterval])
      match env.sleepContext k with
      | some err2 => some (some err2, evs)
      | none =>
        match pollMarker env conf fuel (k + 1) with
        | none => none
        | some (r, rest) => some (r, evs ++ rest)

/-- Lines 44-62: the wait is skipped when `markerFile` is empty. -/
def waitForMarker (env : Env) (conf : Config) (fuel : Nat) :
    Option (Option GoError × List Event) :=
  if env.markerFile ≠ "" then
    match pollMarker env conf fuel 0 with
    | none => none
    | some (r, evs) => some (r, .log .info .waitingForMarkerToBePresent :: evs)
  else
    some (none, [])

/-! ## The syncer tasks and their errgroup (lines 64-83, 98) -/

/-- Lines 65-83: for each unit construct the syncer, then spawn its task.
A construction error returns at once (line 68). -/
def spawnSyncers (env : Env) : List String → Option GoError × List Event
  | [] => (none, [])
  | name :: rest =>
    match env.syncerNew name with
    | some err => (some err, [.syncerNew name])
    | none =>
      let r := spawnSyncers env rest
      (r.1, .syncerNew name :: .go name :: r.2)

/-- The closure of lines 72-82: what the task of `name` returns to the
errgroup, and what it logs. -/
def syncTask (env : Env) (name : String) : Option GoError × List Event :=
  match env.sync name with
  | none => (none, [])
  | some err =>
    if err = .contextCanceled then
      (some err, [.log .error (.syncCancelled name)])
    else
      (some err, [.log .error (.syncFailed name err)])

/-- State of an `errgroup.Group`: the recorded error, whether `errOnce` has
fired, and whether the group context has been cancelled. -/
structure Group where
  err : Option GoError
  errOnce : Bool
  cancelled : Bool
  deriving DecidableEq, Repr

/-- The group of `errgroup.WithContext` (line 64). -/
def Group.new : Group := ⟨none, false, false⟩

/-- What `errgroup` does when a function passed to `Go` returns `ret`: a
non-nil error fires `errOnce`, which stores it and cancels the context. -/
def Group.finish (g : Group) (ret : Option GoError) : Group :=
  match ret with
  | none => g
  | some e => if g.errOnce then g else ⟨some e, true, true⟩

/-- Put `name` into a list ordered by finish time. -/
def insertByFinish (env : Env) (name : String) : List String → List String
  | [] => [name]
  | m :: ms =>
    if env.finishTime name ≤ env.finishTime m then name :: m :: ms
    else m :: insertByFinish env name ms

/-- The spawned units in the order in which their tasks return. -/
def completionOrder (env : Env) : List String → List String
  | [] => []
  | name :: rest => insertByFinish env name (completionOrder env rest)

/-- The body of `eg.Wait()`: every task of `names` (in completion order) runs to
its end and reports to the group. -/
def joinTasks (env : Env) : List String → Group → Group × List Event
  | [], g => (g, [])
  | name :: rest, g =>
    let r := syncTask env name
    let tl := joinTasks env rest (g.finish r.1)
    (tl.1, r.2 ++ .done name r.1 :: tl.2)

/-! ## The health step (lines 85-95) -/

/-- Lines 85-95. -/
def activateLiveness (env : Env) (conf : Config) : List Event :=
  [.addBuildInfo, .osHostname] ++
    (match env.hostname with
      | some h => [Event.setMeta "hostname" h]
      | none => []) ++
    [.setMeta "version" env.version] ++
    (if !conf.OnlyOnce then [Event.startHTTPServer]
      else [.log .info .notStartingHTTPServer])

/-! ## `runSync` -/

/-- Result of a run: the error `runSync` returns and the trace up to the
return, the deferred `cancel()` included. -/
structure Run where
  err : Option GoError
  trace : List Event
  deriving DecidableEq, Repr

/-- The function `runSync` (lines 28-99).  `fuel` bounds the passes of the
marker loop; `none` means the loop is still polling.  Task terminations are
recorded where `runSync` is synchronised with them, at `eg.Wait()`. -/
def runSync (fuel : Nat) (env : Env) : Option Run :=
  let conf := applyOnlyOnce env
  match env.getBackend with
  | some err => some ⟨some err, [.getBackend, .cancel]⟩
  | none =>
    let t1 : List Event := [.getBackend, .log .info .storageInitialised, .setStorage]
    match waitForMarker env conf fuel with
    | none => none
    | some (some err, t2) => some ⟨some err, t1 ++ t2 ++ [.cancel]⟩
    | some (none, t2) =>
      match spawnSyncers env conf.LMDBs with
      | (some err, t3) => some ⟨some err, t1 ++ t2 ++ t3 ++ [.cancel]⟩
      | (none, t3) =>
        let t4 := activateLiveness env conf ++ [.log .info .allSyncersRunning, .wait]
        let j := joinTasks env (completionOrder env (goNames t3)) Group.new
        some ⟨j.1.err, t1 ++ t2 ++ t3 ++ t4 ++ j.2 ++ [.cancel]⟩

/-- The spawned tasks that `runSync` has not waited for when it returns. -/
def Run.unjoined (r : Run) : List String :=
  (goNames r.trace).filter (fun n => !(doneNames r.trace).contains n)

/-! ## Expected call sequences and concrete runs -/

/-- The calls of a wait that sees `n` failing loads and then a found marker. -/
def pollCalls (name : String) (d : Nat) : Nat → List Event
  | 0 => [.load name]
  | n + 1 => .load name :: .sleepContext d :: pollCalls name d n

/-- The events of the spawn loop for units that are all constructed. -/
def spawnCalls : List String → List Event
  | [] => []
  | name :: rest => .syncerNew name :: .go name :: spawnCalls rest

/-- The events before the marker wait when the backend is constructed. -/
def backendCalls : List Event := [.getBackend, .log .info .storageInitialised, .setStorage]

/-- The trace of a run that reaches `eg.Wait()`. -/
def joinedTrace (env : Env) (t2 : List Event) : List Event :=
  backendCalls ++ t2 ++ spawnCalls env.conf.LMDBs ++
    (activateLiveness env (applyOnlyOnce env) ++ [.log .info .allSyncersRunning, .wait]) ++
    (joinTasks env (completionOrder env env.conf.LMDBs) Group.new).2 ++ [.cancel]

/-- The trace of a run that returns at line 68. -/
def constructionErrorTrace (t2 : List Event) (pre : List String) (u : String) : List Event :=
  backendCalls ++ t2 ++ (spawnCalls pre ++ [.syncerNew u]) ++ [.cancel]

/-- Marker `ready.flag`, interval 10: the storage answers not-found twice and
then finds the marker; one unit. -/
def markerOnThirdPoll : Env where
  onlyOnce := false
  markerFile := "ready.flag"
  conf := ⟨false, "fs", 10, ["main"]⟩
  version := "1"
  getBackend := none
  load := fun _ k => if k < 2 then some (.notExist k) else none
  sleepContext := fun _ => none
  syncerNew := fun _ => none
  sync := fun _ => none
  finishTime := fun _ => 0
  hostname := some "host"

/-- As `markerOnThirdPoll`, but the first load fails with a storage error
that is not a not-found. -/
def markerAfterStorageError : Env :=
  { markerOnThirdPoll with
    load := fun _ k => if k = 0 then some (.failure 5) else if k = 1 then some (.notExist 1) else none }

/-- As `markerOnThirdPoll`, but the marker never appears and the second sleep
is cancelled. -/
def markerWaitCancelled : Env :=
  { markerOnThirdPoll with
    load := fun _ k => if k = 0 then some (.failure 5) else some (.notExist k)
    sleepContext := fun k => if k = 1 then some .contextCanceled else none }

/-- The same environment with every failing load answered as not-found. -/
def Env.notFoundOnly (env : Env) : Env :=
  { env with load := fun name k => (env.load name k).map (fun _ => GoError.notExist 0) }

/-- Three units that all succeed, started with `--only-once`, no marker. -/
def threeUnitsOnlyOnce : Env where
  onlyOnce := true
  markerFile := ""
  conf := ⟨false, "fs", 10, ["a", "b", "c"]⟩
  version := "1"
  getBackend := none
  load := fun _ _ => none
  sleepContext := fun _ => none
  syncerNew := fun _ => none
  sync := fun _ => none
  finishTime := fun n => if n = "a" then 3 else if n = "b" then 1 else 2
  hostname := some "host"

/-- Units `a`, `b`, `c` spawned in that order; `b` succeeds first, then `c`
fails with error 2, then `a` fails with error 1. -/
def twoFailures : Env :=
  { threeUnitsOnlyOnce with
    onlyOnce := false
    sync := fun n => if n = "a" then some (.failure 1) else if n = "c" then some (.failure 2)
      else none }

/-- Units `a` then `b`; the syncer of `a` is constructed and its task spawned,
the construction of the syncer of `b` fails with error 7. -/
def secondUnitInvalid : Env :=
  { threeUnitsOnlyOnce with
    onlyOnce := false
    conf := ⟨false, "fs", 10, ["a", "b"]⟩
    syncerNew := fun n => if n = "b" then some (.failure 7) else none }

/-- Units `a` then `b`; the task of `a` returns `context.Canceled` first (the
root context was cancelled), then the task of `b` fails with error 3. -/
def cancelledBeforeFailure : Env :=
  { threeUnitsOnlyOnce with
    onlyOnce := false
    conf := ⟨false, "fs", 10, ["a", "b"]⟩
    sync := fun n => if n = "a" then some .contextCanceled else some (.failure 3)
    finishTime := fun n => if n = "a" then 1 else 2 }

/-- As `secondUnitInvalid`, and the task of `a`, the only one spawned, fails
with error 1. -/
def firstFailsSecondInvalid : Env :=
  { secondUnitInvalid with
    sync := fun n => if n = "a" then some (.failure 1) else none }

/-- The run of `secondUnitInvalid`. -/
def secondUnitInvalidRun : Run :=
  ⟨some (.failure 7),
    [.getBackend, .log .info .storageInitialised, .setStorage,
      .syncerNew "a", .go "a", .syncerNew "b", .cancel]⟩

/-! ## Lemmas on the marker-file wait -/

theorem pollCalls_sleeps (name : String) (d : Nat) :
    ∀ (n : Nat) (e : Event), e ∈ pollCalls name d n → e.isSleep = true → e = .sleepContext d := by
  intro n
  induction n with
  | zero =>
    intro e he hs
    simp only [pollCalls, List.mem_singleton] at he
    subst he
    simp [Event.isSleep] at hs
  | succ n ih =>
    intro e he hs
    simp only [pollCalls, List.mem_cons] at he
    rcases he with rfl | rfl | he
    · simp [Event.isSleep] at hs
    · rfl
    · exact ih e he hs

theorem pollMarker_ready (env : Env) (conf : Config) :
    ∀ (n k fuel : Nat), n < fuel →
      (∀ i, i < n → (env.load env.markerFile (k + i)).isSome = true) →
      env.load env.markerFile (k + n) = none →
      (∀ i, i < n → env.sleepContext (k + i) = none) →
      ∃ tr, pollMarker env conf fuel k = some (none, tr) ∧
        tr.countP Event.isLoad = n + 1 ∧ tr.countP Event.isSleep = n ∧
        tr.filter (fun e => !e.isLog) =
          pollCalls env.markerFile conf.StoragePollInterval n := by
  intro n
  induction n with
  | zero =>
    intro k fuel hf _ hfound _
    obtain ⟨f, rfl⟩ : ∃ f, fuel = f + 1 := ⟨fuel - 1, by omega⟩
    simp only [Nat.add_zero] at hfound
    refine ⟨[.load env.markerFile, .log .info .markerFound], ?_, ?_, ?_, ?_⟩
    · simp [pollMarker, hfound]
    · simp [Event.isLoad]
    · simp [Event.isSleep]
    · simp [Event.isLog, pollCalls]
  | succ n ih =>
    intro k fuel hf hload hfound hsleep
    obtain ⟨f, rfl⟩ : ∃ f, fuel = f + 1 := ⟨fuel - 1, by omega⟩
    have h0 := hload 0 (by omega)
    have s0 := hsleep 0 (by omega)
    simp only [Nat.add_zero] at h0 s0
    obtain ⟨err, herr⟩ := Option.isSome_iff_exists.mp h0
    obtain ⟨tr, htr, hl, hs, hc⟩ := ih (k + 1) f (by omega)
      (fun i hi => by have := hload (i + 1) (by omega); rwa [← Nat.add_assoc, Nat.add_right_comm] at this)
      (by rwa [← Nat.add_assoc, Nat.add_right_comm] at hfound)
      (fun i hi => by have := hsleep (i + 1) (by omega); rwa [← Nat.add_assoc, Nat.add_right_comm] at this)
    simp only [pollMarker, herr, s0, htr]
    refine ⟨_, rfl, ?_, ?_, ?_⟩
    · cases h : isNotExist err <;> simp [h, Event.isLoad, hl, List.countP_cons]
    · cases h : isNotExist err <;> simp [h, Event.isSleep, hs, List.countP_cons]
    · rw [pollCalls, ← hc]
      cases h : isNotExist err <;> simp [h, Event.isLog]

/-- Every event of the marker loop is a load, a sleep or a log line. -/
theorem pollMarker_events (env : Env) (conf : Config) :
    ∀ (fuel k : Nat) (r : Option GoError) (tr : List Event),
      pollMarker env conf fuel k = some (r, tr) →
      ∀ e ∈ tr, e.isLoad = true ∨ e.isSleep = true ∨ e.isLog = true := by
  intro fuel
  induction fuel with
  | zero => intro k r tr h; simp [pollMarker] at h
  | succ f ih =>
    intro k r tr h e he
    rw [pollMarker] at h
    cases hl : env.load env.markerFile k with
    | none =>
      simp only [hl, Option.some.injEq, Prod.mk.injEq] at h
      obtain ⟨-, rfl⟩ := h
      simp at he
      rcases he with rfl | rfl <;> simp [Event.isLoad, Event.isLog]
    | some err =>
      simp only [hl] at h
      have hevs : ∀ e ∈ (Event.load env.markerFile ::
          ((if !isNotExist err then [Event.log .error (.unableToCheckStorage err)] else []) ++
            [.log .debug .waitingForMarker, .sleepContext conf.StoragePollInterval])),
          e.isLoad = true ∨ e.isSleep = true ∨ e.isLog = true := by
        intro e he
        cases hn : isNotExist err <;> simp [hn] at he <;>
          rcases he with rfl | rfl | rfl | rfl <;>
          simp [Event.isLoad, Event.isLog, Event.isSleep]
      cases hs : env.sleepContext k with
      | some err2 =>
        simp only [hs, Option.some.injEq, Prod.mk.injEq] at h
        obtain ⟨-, rfl⟩ := h
        exact hevs e he
      | none =>
        simp only [hs] at h
        cases hp : pollMarker env conf f (k + 1) with
        | none => simp [hp] at h
        | some p =>
          obtain ⟨r2, rest⟩ := p
          simp only [hp, Option.some.injEq, Prod.mk.injEq] at h
          obtain ⟨-, rfl⟩ := h
          rcases List.mem_append.mp he with h1 | h2
          · exact hevs e h1
          · exact ih (k + 1) r2 rest hp e h2

/-- A marker loop whose sleep is cancelled at pass `k + n` stops there. -/
theorem pollMarker_cancelled (env : Env) (conf : Config) (err : GoError) :
    ∀ (n k fuel : Nat), n < fuel →
      (∀ i, i ≤ n → (env.load env.markerFile (k + i)).isSome = true) →
      (∀ i, i < n → env.sleepContext (k + i) = none) →
      env.sleepContext (k + n) = some err →
      ∃ pre, pollMarker env conf fuel k =
          some (some err, pre ++ [.sleepContext conf.StoragePollInterval]) ∧
        pre.countP Event.isLoad = n + 1 ∧ pre.countP Event.isSleep = n := by
  intro n
  induction n with
  | zero =>
    intro k fuel hf hload _ hcancel
    obtain ⟨f, rfl⟩ : ∃ f, fuel = f + 1 := ⟨fuel - 1, by omega⟩
    have h0 := hload 0 (by omega)
    simp only [Nat.add_zero] at h0 hcancel
    obtain ⟨e0, he0⟩ := Option.isSome_iff_exists.mp h0
    simp only [pollMarker, he0, hcancel]
    refine ⟨.load env.markerFile ::
      ((if !isNotExist e0 then [Event.log .error (.unableToCheckStorage e0)] else []) ++
        [.log .debug .waitingForMarker]), by simp, ?_, ?_⟩
    · cases h : isNotExist e0 <;> simp [h, Event.isLoad, List.countP_cons]
    · cases h : isNotExist e0 <;> simp [h, Event.isSleep, List.countP_cons]
  | succ n ih =>
    intro k fuel hf hload hsleep hcancel
    obtain ⟨f, rfl⟩ : ∃ f, fuel = f + 1 := ⟨fuel - 1, by omega⟩
    have h0 := hload 0 (by omega)
    have s0 := hsleep 0 (by omega)
    simp only [Nat.add_zero] at h0 s0
    obtain ⟨e0, he0⟩ := Option.isSome_iff_exists.mp h0
    obtain ⟨pre, hpre, hl, hs⟩ := ih (k + 1) f (by omega)
      (fun i hi => by have := hload (i + 1) (by omega); rwa [← Nat.add_assoc, Nat.add_right_comm] at this)
      (fun i hi => by have := hsleep (i + 1) (by omega); rwa [← Nat.add_assoc, Nat.add_right_comm] at this)
      (by rwa [← Nat.add_assoc, Nat.add_right_comm] at hcancel)
    simp only [pollMarker, he0, s0, hpre]
    refine ⟨(.load env.markerFile ::
      ((if !isNotExist e0 then [Event.log .error (.unableToCheckStorage e0)] else []) ++
        [.log .debug .waitingForMarker, .sleepContext conf.StoragePollInterval])) ++ pre,
      by simp, ?_, ?_⟩
    · cases h : isNotExist e0 <;> simp [h, Event.isLoad, hl, List.countP_cons]
    · cases h : isNotExist e0 <;> simp [h, Event.isSleep, hs, List.countP_cons]

/-! ## Lemmas on traces -/

theorem goNames_append (a b : List Event) : goNames (a ++ b) = goNames a ++ goNames b := by
  induction a with
  | nil => rfl
  | cons e a ih => cases e <;> simp [goNames, ih]

theorem doneNames_append (a b : List Event) :
    doneNames (a ++ b) = doneNames a ++ doneNames b := by
  induction a with
  | nil => rfl
  | cons e a ih => cases e <;> simp [doneNames, ih]

theorem goNames_eq_nil (t : List Event) (h : ∀ e ∈ t, e.isGo = false) : goNames t = [] := by
  induction t with
  | nil => rfl
  | cons e t ih =>
    have he := h e (List.mem_cons_self _ _)
    have ht := ih (fun x hx => h x (List.mem_cons_of_mem _ hx))
    cases e <;> simp_all [goNames, Event.isGo]

theorem doneNames_eq_nil (t : List Event) (h : ∀ e ∈ t, e.isDone = false) :
    doneNames t = [] := by
  induction t with
  | nil => rfl
  | cons e t ih =>
    have he := h e (List.mem_cons_self _ _)
    have ht := ih (fun x hx => h x (List.mem_cons_of_mem _ hx))
    cases e <;> simp_all [doneNames, Event.isDone]

theorem countP_isGo (t : List Event) : t.countP Event.isGo = (goNames t).length := by
  induction t with
  | nil => rfl
  | cons e t ih => cases e <;> simp [goNames, Event.isGo, List.countP_cons, ih]

theorem countP_isDone (t : List Event) : t.countP Event.isDone = (doneNames t).length := by
  induction t with
  | nil => rfl
  | cons e t ih => cases e <;> simp [doneNames, Event.isDone, List.countP_cons, ih]

/-! ## Lemmas on the spawn loop -/

theorem goNames_spawnCalls (l : List String) : goNames (spawnCalls l) = l := by
  induction l with
  | nil => rfl
  | cons n l ih => simp [spawnCalls, goNames, ih]

theorem doneNames_spawnCalls (l : List String) : doneNames (spawnCalls l) = [] := by
  induction l with
  | nil => rfl
  | cons n l ih => simp [spawnCalls, doneNames, ih]

theorem countP_isSyncerNew_spawnCalls (l : List String) :
    (spawnCalls l).countP Event.isSyncerNew = l.length := by
  induction l with
  | nil => rfl
  | cons n l ih => simp [spawnCalls, List.countP_cons, Event.isSyncerNew, ih]

theorem spawnCalls_kinds (l : List String) :
    ∀ e ∈ spawnCalls l, e.isSyncerNew = true ∨ e.isGo = true := by
  induction l with
  | nil => simp [spawnCalls]
  | cons n l ih =>
    intro e he
    simp only [spawnCalls, List.mem_cons] at he
    rcases he with rfl | rfl | he
    · simp [Event.isSyncerNew]
    · simp [Event.isGo]
    · exact ih e he

theorem spawnSyncers_ok (env : Env) (l : List String)
    (h : ∀ u ∈ l, env.syncerNew u = none) : spawnSyncers env l = (none, spawnCalls l) := by
  induction l with
  | nil => rfl
  | cons n l ih =>
    have hn := h n (List.mem_cons_self _ _)
    have hl := ih (fun u hu => h u (List.mem_cons_of_mem _ hu))
    simp [spawnSyncers, hn, hl, spawnCalls]

theorem spawnSyncers_fail (env : Env) (pre : List String) (u : String) (post : List String)
    (e : GoError) (hpre : ∀ v ∈ pre, env.syncerNew v = none) (hu : env.syncerNew u = some e) :
    spawnSyncers env (pre ++ u :: post) = (some e, spawnCalls pre ++ [.syncerNew u]) := by
  induction pre with
  | nil => simp [spawnSyncers, hu, spawnCalls]
  | cons n l ih =>
    have hn := hpre n (List.mem_cons_self _ _)
    have hl := ih (fun v hv => hpre v (List.mem_cons_of_mem _ hv))
    simp [spawnSyncers, hn, hl, spawnCalls]

/-- A list of units either is constructed in full or has a first unit whose
construction fails. -/
theorem first_construction_failure (env : Env) (l : List String) :
    (∀ u ∈ l, env.syncerNew u = none) ∨
      ∃ pre u post e, l = pre ++ u :: post ∧ (∀ v ∈ pre, env.syncerNew v = none) ∧
        env.syncerNew u = some e := by
  induction l with
  | nil => left; simp
  | cons n l ih =>
    cases hn : env.syncerNew n with
    | some e => right; exact ⟨[], n, l, e, rfl, by simp, hn⟩
    | none =>
      rcases ih with h | ⟨pre, u, post, e, rfl, hpre, hu⟩
      · left
        intro v hv
        rcases List.mem_cons.mp hv with rfl | hv
        · exact hn
        · exact h v hv
      · right
        refine ⟨n :: pre, u, post, e, rfl, ?_, hu⟩
        intro v hv
        rcases List.mem_cons.mp hv with rfl | hv
        · exact hn
        · exact hpre v hv

/-! ## Lemmas on the errgroup -/

theorem syncTask_fst (env : Env) (name : String) : (syncTask env name).1 = env.sync name := by
  unfold syncTask
  cases h : env.sync name with
  | none => rfl
  | some err => by_cases hc : err = .contextCanceled <;> simp [hc]

theorem syncTask_kinds (env : Env) (name : String) :
    ∀ e ∈ (syncTask env name).2, e.isLog = true := by
  unfold syncTask
  cases h : env.sync name with
  | none => simp
  | some err => by_cases hc : err = .contextCanceled <;> simp [hc, Event.isLog]

/-- Once `errOnce` has fired the group no longer changes. -/
theorem joinTasks_fixed (env : Env) (l : List String) (g : Group) (h : g.errOnce = true) :
    (joinTasks env l g).1 = g := by
  induction l with
  | nil => rfl
  | cons n l ih =>
    have hf : g.finish (syncTask env n).1 = g := by
      unfold Group.finish
      cases (syncTask env n).1 <;> simp [h]
    simp [joinTasks, hf, ih]

theorem joinTasks_first_failure (env : Env) (pre : List String) (u : String)
    (post : List String) (e : GoError) (hpre : ∀ v ∈ pre, env.sync v = none)
    (hu : env.sync u = some e) :
    (joinTasks env (pre ++ u :: post) Group.new).1 = ⟨some e, true, true⟩ := by
  induction pre with
  | nil =>
    simp only [List.nil_append, joinTasks, syncTask_fst, hu]
    exact joinTasks_fixed env post _ rfl
  | cons n l ih =>
    have hn := hpre n (List.mem_cons_self _ _)
    have hl := ih (fun v hv => hpre v (List.mem_cons_of_mem _ hv))
    simp only [List.cons_append, joinTasks, syncTask_fst, hn, Group.finish]
    exact hl

theorem joinTasks_all_success (env : Env) (l : List String) (g : Group)
    (h : ∀ v ∈ l, env.sync v = none) : (joinTasks env l g).1 = g := by
  induction l with
  | nil => rfl
  | cons n l ih =>
    have hn := h n (List.mem_cons_self _ _)
    have hl := ih (fun v hv => h v (List.mem_cons_of_mem _ hv))
    simp only [joinTasks, syncTask_fst, hn, Group.finish]
    exact hl

/-- A list of outcomes is all success or has a first failure. -/
theorem first_sync_failure (env : Env) (l : List String) :
    (∀ u ∈ l, env.sync u = none) ∨
      ∃ pre u post e, l = pre ++ u :: post ∧ (∀ v ∈ pre, env.sync v = none) ∧
        env.sync u = some e := by
  induction l with
  | nil => left; simp
  | cons n l ih =>
    cases hn : env.sync n with
    | some e => right; exact ⟨[], n, l, e, rfl, by simp, hn⟩
    | none =>
      rcases ih with h | ⟨pre, u, post, e, rfl, hpre, hu⟩
      · left
        intro v hv
        rcases List.mem_cons.mp hv with rfl | hv
        · exact hn
        · exact h v hv
      · right
        refine ⟨n :: pre, u, post, e, rfl, ?_, hu⟩
        intro v hv
        rcases List.mem_cons.mp hv with rfl | hv
        · exact hn
        · exact hpre v hv

theorem doneNames_joinTasks (env : Env) (l : List String) (g : Group) :
    doneNames (joinTasks env l g).2 = l := by
  induction l generalizing g with
  | nil => rfl
  | cons n l ih =>
    have hk : doneNames (syncTask env n).2 = [] :=
      doneNames_eq_nil _ (fun e he => by
        have := syncTask_kinds env n e he
        cases e <;> simp_all [Event.isLog, Event.isDone])
    simp [joinTasks, doneNames_append, hk, doneNames, ih]

theorem joinTasks_kinds (env : Env) (l : List String) (g : Group) :
    ∀ e ∈ (joinTasks env l g).2, e.isDone = true ∨ e.isLog = true := by
  induction l generalizing g with
  | nil => simp [joinTasks]
  | cons n l ih =>
    intro e he
    simp only [joinTasks, List.mem_append, List.mem_cons] at he
    rcases he with h | rfl | h
    · exact Or.inr (syncTask_kinds env n e h)
    · simp [Event.isDone]
    · exact ih _ e h

/-! ## Lemmas on the completion order -/

theorem insertByFinish_perm (env : Env) (n : String) (l : List String) :
    (insertByFinish env n l).Perm (n :: l) := by
  induction l with
  | nil => simp [insertByFinish]
  | cons m ms ih =>
    unfold insertByFinish
    split
    · exact List.Perm.refl _
    · exact (List.Perm.cons m ih).trans (List.Perm.swap n m ms)

theorem completionOrder_perm (env : Env) (l : List String) :
    (completionOrder env l).Perm l := by
  induction l with
  | nil => exact List.Perm.refl _
  | cons n l ih =>
    exact (insertByFinish_perm env n _).trans (List.Perm.cons n ih)

theorem mem_completionOrder (env : Env) (l : List String) (v : String) :
    v ∈ completionOrder env l ↔ v ∈ l :=
  (completionOrder_perm env l).mem_iff

theorem length_completionOrder (env : Env) (l : List String) :
    (completionOrder env l).length = l.length :=
  (completionOrder_perm env l).length_eq

theorem insertByFinish_between (env : Env) (n : String) (p1 p2 : List String)
    (h1 : ∀ a ∈ p1, env.finishTime a < env.finishTime n)
    (h2 : ∀ b ∈ p2, env.finishTime n < env.finishTime b) :
    insertByFinish env n (p1 ++ p2) = p1 ++ n :: p2 := by
  induction p1 with
  | nil =>
    cases p2 with
    | nil => rfl
    | cons b q =>
      have hb := h2 b (List.mem_cons_self _ _)
      simp [insertByFinish, Nat.le_of_lt hb]
  | cons a p1 ih =>
    have ha := h1 a (List.mem_cons_self _ _)
    have hrest := ih (fun x hx => h1 x (List.mem_cons_of_mem _ hx))
    simp [insertByFinish, Nat.not_le.mpr ha, hrest]

/-- Tasks whose finish times are pairwise different return in the order of
those times, in whatever order they were spawned. -/
theorem completionOrder_eq_of_sorted (env : Env) :
    ∀ (l p : List String), l.Perm p →
      p.Pairwise (fun a b => env.finishTime a < env.finishTime b) →
      completionOrder env l = p := by
  intro l
  induction l with
  | nil =>
    intro p hp _
    have hnil : p = [] := (List.Perm.nil_eq hp).symm
    subst hnil
    rfl
  | cons n l ih =>
    intro p hp hs
    have hn : n ∈ p := hp.subset (List.mem_cons_self _ _)
    obtain ⟨p1, p2, rfl⟩ := List.append_of_mem hn
    have hperm : l.Perm (p1 ++ p2) := (hp.trans List.perm_middle).cons_inv
    have hsub : (p1 ++ p2).Pairwise (fun a b => env.finishTime a < env.finishTime b) :=
      hs.sublist (List.Sublist.append_left (List.sublist_cons_self n p2) p1)
    obtain ⟨-, h2, h12⟩ := List.pairwise_append.mp hs
    rw [completionOrder, ih (p1 ++ p2) hperm hsub]
    exact insertByFinish_between env n p1 p2
      (fun a ha => h12 a ha n (List.mem_cons_self _ _))
      (fun b hb => (List.pairwise_cons.mp h2).1 b hb)

/-- Every order of distinct units is the order of some finish times. -/
theorem exists_finishTime_sorted (p : List String) (hp : p.Nodup) :
    ∃ ft : String → Nat, p.Pairwise (fun a b => ft a < ft b) := by
  induction p with
  | nil => exact ⟨fun _ => 0, List.Pairwise.nil⟩
  | cons a q ih =>
    obtain ⟨hq, hnd⟩ := List.nodup_cons.mp hp
    obtain ⟨ft, hft⟩ := ih hnd
    refine ⟨fun x => if x = a then 0 else ft x + 1, List.pairwise_cons.mpr ⟨?_, ?_⟩⟩
    · intro b hb
      have hba : b ≠ a := fun h => hq (h ▸ hb)
      simp [hba]
    · refine hft.imp_of_mem ?_
      intro x y hx hy hxy
      have hxa : x ≠ a := fun h => hq (h ▸ hx)
      have hya : y ≠ a := fun h => hq (h ▸ hy)
      simp [hxa, hya, hxy]

/-- The model does not restrict the scheduler: every order of the spawned
units is the completion order for some finish times. -/
theorem completionOrder_any_order (env : Env) (l p : List String) (hl : l.Nodup)
    (hp : l.Perm p) :
    ∃ ft : String → Nat, completionOrder { env with finishTime := ft } l = p := by
  obtain ⟨ft, hft⟩ := exists_finishTime_sorted p ((hp.nodup_iff).mp hl)
  exact ⟨ft, completionOrder_eq_of_sorted { env with finishTime := ft } l p hp hft⟩

/-! ## The return paths of `runSync` -/

theorem applyOnlyOnce_LMDBs (env : Env) : (applyOnlyOnce env).LMDBs = env.conf.LMDBs := by
  unfold applyOnlyOnce; split <;> rfl

theorem applyOnlyOnce_StoragePollInterval (env : Env) :
    (applyOnlyOnce env).StoragePollInterval = env.conf.StoragePollInterval := by
  unfold applyOnlyOnce; split <;> rfl

theorem applyOnlyOnce_OnlyOnce (env : Env) :
    (applyOnlyOnce env).OnlyOnce = (env.onlyOnce || env.conf.OnlyOnce) := by
  unfold applyOnlyOnce; cases h : env.onlyOnce <;> simp

/-- Return at line 38. -/
theorem runSync_backend_error (fuel : Nat) (env : Env) (e : GoError)
    (hb : env.getBackend = some e) :
    runSync fuel env = some ⟨some e, [.getBackend, .cancel]⟩ := by
  simp [runSync, hb]

/-- Return at line 59. -/
theorem runSync_wait_error (fuel : Nat) (env : Env) (e : GoError) (t2 : List Event)
    (hb : env.getBackend = none)
    (hg : waitForMarker env (applyOnlyOnce env) fuel = some (some e, t2)) :
    runSync fuel env = some ⟨some e, backendCalls ++ t2 ++ [.cancel]⟩ := by
  simp [runSync, hb, hg, backendCalls]

/-- Return at line 68. -/
theorem runSync_construction_error (fuel : Nat) (env : Env) (t2 : List Event)
    (pre : List String) (u : String) (post : List String) (e : GoError)
    (hb : env.getBackend = none)
    (hg : waitForMarker env (applyOnlyOnce env) fuel = some (none, t2))
    (hl : env.conf.LMDBs = pre ++ u :: post)
    (hpre : ∀ v ∈ pre, env.syncerNew v = none) (hu : env.syncerNew u = some e) :
    runSync fuel env =
      some ⟨some e, backendCalls ++ t2 ++ (spawnCalls pre ++ [.syncerNew u]) ++ [.cancel]⟩ := by
  simp [runSync, hb, hg, backendCalls, applyOnlyOnce_LMDBs, hl,
    spawnSyncers_fail env pre u post e hpre hu]

/-- Return at line 98. -/
theorem runSync_joined (fuel : Nat) (env : Env) (t2 : List Event)
    (hb : env.getBackend = none)
    (hg : waitForMarker env (applyOnlyOnce env) fuel = some (none, t2))
    (hnew : ∀ u ∈ env.conf.LMDBs, env.syncerNew u = none) :
    runSync fuel env =
      some ⟨(joinTasks env (completionOrder env env.conf.LMDBs) Group.new).1.err,
        backendCalls ++ t2 ++ spawnCalls env.conf.LMDBs ++
          (activateLiveness env (applyOnlyOnce env) ++ [.log .info .allSyncersRunning, .wait]) ++
          (joinTasks env (completionOrder env env.conf.LMDBs) Group.new).2 ++ [.cancel]⟩ := by
  simp [runSync, hb, hg, backendCalls, applyOnlyOnce_LMDBs,
    spawnSyncers_ok env _ hnew, goNames_spawnCalls]

theorem waitForMarker_events (env : Env) (conf : Config) (fuel : Nat) (r : Option GoError)
    (tr : List Event) (h : waitForMarker env conf fuel = some (r, tr)) :
    ∀ e ∈ tr, e.isLoad = true ∨ e.isSleep = true ∨ e.isLog = true := by
  unfold waitForMarker at h
  split at h
  · cases hp : pollMarker env conf fuel 0 with
    | none => simp [hp] at h
    | some p =>
      obtain ⟨r2, evs⟩ := p
      simp only [hp, Option.some.injEq, Prod.mk.injEq] at h
      obtain ⟨-, rfl⟩ := h
      intro e he
      rcases List.mem_cons.mp he with rfl | he
      · simp [Event.isLog]
      · exact pollMarker_events env conf fuel 0 r2 evs hp e he
  · simp only [Option.some.injEq, Prod.mk.injEq] at h
    obtain ⟨-, rfl⟩ := h
    simp

theorem activateLiveness_kinds (env : Env) (conf : Config) :
    ∀ e ∈ activateLiveness env conf, e.isLiveness = true ∨ e.isLog = true := by
  intro e he
  unfold activateLiveness at he
  cases hh : env.hostname <;> cases ho : conf.OnlyOnce <;> simp [hh, ho] at he <;>
    rcases he with rfl | rfl | rfl | rfl | rfl <;> simp [Event.isLiveness, Event.isLog]

theorem count_startHTTPServer_activateLiveness (env : Env) (conf : Config) :
    (activateLiveness env conf).count .startHTTPServer = if conf.OnlyOnce then 0 else 1 := by
  unfold activateLiveness
  cases hh : env.hostname <;> cases ho : conf.OnlyOnce <;> simp [List.count_cons]

/-! ## Which stage an event can come from -/

theorem gate_event_kinds (e : Event)
    (h : e.isLoad = true ∨ e.isSleep = true ∨ e.isLog = true) :
    e.isSyncerNew = false ∧ e.isGo = false ∧ e.isDone = false ∧ e.isLiveness = false ∧
      e ≠ .wait := by
  cases e <;> simp [Event.isLoad, Event.isSleep, Event.isLog, Event.isSyncerNew, Event.isGo,
    Event.isDone, Event.isLiveness] at h ⊢

theorem spawn_event_kinds (e : Event) (h : e.isSyncerNew = true ∨ e.isGo = true) :
    e.isLoad = false ∧ e.isSleep = false ∧ e.isDone = false ∧ e.isLiveness = false ∧
      e ≠ .wait := by
  cases e <;> simp [Event.isLoad, Event.isSleep, Event.isSyncerNew, Event.isGo,
    Event.isDone, Event.isLiveness] at h ⊢

theorem liveness_event_kinds (e : Event) (h : e.isLiveness = true ∨ e.isLog = true) :
    e.isLoad = false ∧ e.isSleep = false ∧ e.isSyncerNew = false ∧ e.isGo = false ∧
      e.isDone = false := by
  cases e <;> simp [Event.isLoad, Event.isSleep, Event.isLog, Event.isSyncerNew, Event.isGo,
    Event.isDone, Event.isLiveness] at h ⊢

theorem join_event_kinds (e : Event) (h : e.isDone = true ∨ e.isLog = true) :
    e.isLoad = false ∧ e.isSleep = false ∧ e.isSyncerNew = false ∧ e.isGo = false ∧
      e.isLiveness = false ∧ e ≠ .startHTTPServer := by
  cases e <;> simp [Event.isLoad, Event.isSleep, Event.isLog, Event.isSyncerNew, Event.isGo,
    Event.isDone, Event.isLiveness] at h ⊢

theorem countP_eq_zero_of_false (p : Event → Bool) (t : List Event)
    (h : ∀ e ∈ t, p e = false) : t.countP p = 0 :=
  List.countP_eq_zero.mpr (fun e he => by simp [h e he])

theorem spawnCalls_no_load (l : List String) : (spawnCalls l).countP Event.isLoad = 0 :=
  countP_eq_zero_of_false _ _ (fun e he => (spawn_event_kinds e (spawnCalls_kinds l e he)).1)

theorem spawnCalls_no_sleep (l : List String) : (spawnCalls l).countP Event.isSleep = 0 :=
  countP_eq_zero_of_false _ _ (fun e he => (spawn_event_kinds e (spawnCalls_kinds l e he)).2.1)

theorem activateLiveness_no_load (env : Env) (conf : Config) :
    (activateLiveness env conf).countP Event.isLoad = 0 :=
  countP_eq_zero_of_false _ _
    (fun e he => (liveness_event_kinds e (activateLiveness_kinds env conf e he)).1)

theorem activateLiveness_no_sleep (env : Env) (conf : Config) :
    (activateLiveness env conf).countP Event.isSleep = 0 :=
  countP_eq_zero_of_false _ _
    (fun e he => (liveness_event_kinds e (activateLiveness_kinds env conf e he)).2.1)

theorem joinTasks_no_load (env : Env) (l : List String) (g : Group) :
    (joinTasks env l g).2.countP Event.isLoad = 0 :=
  countP_eq_zero_of_false _ _
    (fun e he => (join_event_kinds e (joinTasks_kinds env l g e he)).1)

theorem joinTasks_no_sleep (env : Env) (l : List String) (g : Group) :
    (joinTasks env l g).2.countP Event.isSleep = 0 :=
  countP_eq_zero_of_false _ _
    (fun e he => (join_event_kinds e (joinTasks_kinds env l g e he)).2.1)

/-! ## Spawned and terminated tasks of a run -/

theorem goNames_backendCalls : goNames backendCalls = [] := rfl

theorem doneNames_backendCalls : doneNames backendCalls = [] := rfl

theorem goNames_wait (env : Env) (conf : Config) (fuel : Nat) (r : Option GoError)
    (tr : List Event) (h : waitForMarker env conf fuel = some (r, tr)) : goNames tr = [] :=
  goNames_eq_nil tr (fun e he => (gate_event_kinds e (waitForMarker_events env conf fuel r tr h e he)).2.1)

theorem doneNames_wait (env : Env) (conf : Config) (fuel : Nat) (r : Option GoError)
    (tr : List Event) (h : waitForMarker env conf fuel = some (r, tr)) : doneNames tr = [] :=
  doneNames_eq_nil tr
    (fun e he => (gate_event_kinds e (waitForMarker_events env conf fuel r tr h e he)).2.2.1)

theorem goNames_activateLiveness (env : Env) (conf : Config) :
    goNames (activateLiveness env conf) = [] :=
  goNames_eq_nil _
    (fun e he => (liveness_event_kinds e (activateLiveness_kinds env conf e he)).2.2.2.1)

theorem doneNames_activateLiveness (env : Env) (conf : Config) :
    doneNames (activateLiveness env conf) = [] :=
  doneNames_eq_nil _
    (fun e he => (liveness_event_kinds e (activateLiveness_kinds env conf e he)).2.2.2.2)

theorem goNames_joinTasks (env : Env) (l : List String) (g : Group) :
    goNames (joinTasks env l g).2 = [] :=
  goNames_eq_nil _ (fun e he => (join_event_kinds e (joinTasks_kinds env l g e he)).2.2.2.1)

theorem goNames_joinedTrace (env : Env) (t2 : List Event) (h2 : goNames t2 = []) :
    goNames (joinedTrace env t2) = env.conf.LMDBs := by
  have h1 : goNames [Event.log .info .allSyncersRunning, .wait] = [] := rfl
  have h3 : goNames [Event.cancel] = [] := rfl
  simp only [joinedTrace, goNames_append, goNames_backendCalls, h2, goNames_spawnCalls,
    goNames_activateLiveness, goNames_joinTasks, h1, h3, List.nil_append, List.append_nil]

theorem doneNames_joinedTrace (env : Env) (t2 : List Event) (h2 : doneNames t2 = []) :
    doneNames (joinedTrace env t2) = completionOrder env env.conf.LMDBs := by
  have h1 : doneNames [Event.log .info .allSyncersRunning, .wait] = [] := rfl
  have h3 : doneNames [Event.cancel] = [] := rfl
  simp only [joinedTrace, doneNames_append, doneNames_backendCalls, h2, doneNames_spawnCalls,
    doneNames_activateLiveness, doneNames_joinTasks, h1, h3, List.nil_append, List.append_nil]

theorem goNames_constructionErrorTrace (t2 : List Event) (pre : List String) (u : String)
    (h2 : goNames t2 = []) : goNames (constructionErrorTrace t2 pre u) = pre := by
  have h1 : goNames [Event.syncerNew u] = [] := rfl
  have h3 : goNames [Event.cancel] = [] := rfl
  simp only [constructionErrorTrace, goNames_append, goNames_backendCalls, h2,
    goNames_spawnCalls, h1, h3, List.nil_append, List.append_nil]

theorem doneNames_constructionErrorTrace (t2 : List Event) (pre : List String) (u : String)
    (h2 : doneNames t2 = []) : doneNames (constructionErrorTrace t2 pre u) = [] := by
  have h1 : doneNames [Event.syncerNew u] = [] := rfl
  have h3 : doneNames [Event.cancel] = [] := rfl
  simp only [constructionErrorTrace, doneNames_append, doneNames_backendCalls, h2,
    doneNames_spawnCalls, h1, h3, List.nil_append, List.append_nil]

/-- The result of the group once every task has reported: no error exactly
when every task succeeded. -/
theorem joinTasks_err_eq_none_iff (env : Env) (l : List String) :
    (joinTasks env l Group.new).1.err = none ↔ ∀ u ∈ l, env.sync u = none := by
  rcases first_sync_failure env l with h | ⟨pre, u, post, e, rfl, hpre, hu⟩
  · rw [joinTasks_all_success env l _ h]
    exact ⟨fun _ => h, fun _ => rfl⟩
  · rw [joinTasks_first_failure env pre u post e hpre hu]
    constructor
    · intro h; simp at h
    · intro h
      have := h u (by simp)
      rw [hu] at this
      exact absurd this (by simp)

/-- The four ways in which `runSync` returns. -/
theorem runSync_cases (fuel : Nat) (env : Env) (r : Run) (h : runSync fuel env = some r) :
    (∃ e, env.getBackend = some e ∧ r = ⟨some e, [.getBackend, .cancel]⟩) ∨
    (∃ e t2, waitForMarker env (applyOnlyOnce env) fuel = some (some e, t2) ∧
      r = ⟨some e, backendCalls ++ t2 ++ [.cancel]⟩) ∨
    (∃ t2 pre u post e, waitForMarker env (applyOnlyOnce env) fuel = some (none, t2) ∧
      env.conf.LMDBs = pre ++ u :: post ∧ (∀ v ∈ pre, env.syncerNew v = none) ∧
      env.syncerNew u = some e ∧ r = ⟨some e, constructionErrorTrace t2 pre u⟩) ∨
    (∃ t2, waitForMarker env (applyOnlyOnce env) fuel = some (none, t2) ∧
      (∀ u ∈ env.conf.LMDBs, env.syncerNew u = none) ∧
      r = ⟨(joinTasks env (completionOrder env env.conf.LMDBs) Group.new).1.err,
        joinedTrace env t2⟩) := by
  cases hb : env.getBackend with
  | some e =>
    left
    rw [runSync_backend_error fuel env e hb] at h
    exact ⟨e, rfl, (Option.some.inj h).symm⟩
  | none =>
    right
    cases hg : waitForMarker env (applyOnlyOnce env) fuel with
    | none => simp [runSync, hb, hg] at h
    | some p =>
      obtain ⟨ge, t2⟩ := p
      cases ge with
      | some e =>
        left
        rw [runSync_wait_error fuel env e t2 hb hg] at h
        exact ⟨e, t2, rfl, (Option.some.inj h).symm⟩
      | none =>
        right
        rcases first_construction_failure env env.conf.LMDBs with
          hnew | ⟨pre, u, post, e, hl, hpre, hu⟩
        · right
          rw [runSync_joined fuel env t2 hb hg hnew] at h
          exact ⟨t2, rfl, hnew, (Option.some.inj h).symm⟩
        · left
          rw [runSync_construction_error fuel env t2 pre u post e hb hg hl hpre hu] at h
          exact ⟨t2, pre, u, post, e, rfl, hl, hpre, hu, (Option.some.inj h).symm⟩

theorem count_startHTTPServer_eq_zero (t : List Event)
    (h : ∀ e ∈ t, e.isLiveness = false) : t.count .startHTTPServer = 0 :=
  List.count_eq_zero.mpr (fun hm => by
    have := h _ hm
    simp [Event.isLiveness] at this)

theorem count_startHTTPServer_joinedTrace (env : Env) (t2 : List Event)
    (h2 : ∀ e ∈ t2, e.isLoad = true ∨ e.isSleep = true ∨ e.isLog = true) :
    (joinedTrace env t2).count .startHTTPServer =
      if (applyOnlyOnce env).OnlyOnce then 0 else 1 := by
  have hb : backendCalls.count .startHTTPServer = 0 := by decide
  have h2c : t2.count .startHTTPServer = 0 :=
    count_startHTTPServer_eq_zero t2 (fun e he => (gate_event_kinds e (h2 e he)).2.2.2.1)
  have hs : (spawnCalls env.conf.LMDBs).count .startHTTPServer = 0 :=
    count_startHTTPServer_eq_zero _
      (fun e he => (spawn_event_kinds e (spawnCalls_kinds _ e he)).2.2.2.1)
  have hj : (joinTasks env (completionOrder env env.conf.LMDBs) Group.new).2.count
      .startHTTPServer = 0 :=
    count_startHTTPServer_eq_zero _
      (fun e he => (join_event_kinds e (joinTasks_kinds env _ _ e he)).2.2.2.2.1)
  have hw : [Event.log .info .allSyncersRunning, .wait].count .startHTTPServer = 0 := by decide
  have hc : [Event.cancel].count .startHTTPServer = 0 := by decide
  simp only [joinedTrace, List.count_append, hb, h2c, hs, hj, hw, hc,
    count_startHTTPServer_activateLiveness, Nat.zero_add, Nat.add_zero]

theorem addBuildInfo_mem_joinedTrace (env : Env) (t2 : List Event) :
    Event.addBuildInfo ∈ joinedTrace env t2 := by
  have : Event.addBuildInfo ∈ activateLiveness env (applyOnlyOnce env) := by
    simp [activateLiveness]
  simp [joinedTrace, this]

theorem wait_mem_joinedTrace (env : Env) (t2 : List Event) :
    Event.wait ∈ joinedTrace env t2 := by
  simp [joinedTrace]

/-! ## The marker-file wait ends ready -/

/-- A wait that sees `m` failing loads of any kind, then a found marker. -/
theorem waitForMarker_ready (env : Env) (m fuel : Nat)
    (hfuel : m < fuel) (hm : env.markerFile ≠ "")
    (hfail : ∀ i, i < m → (env.load env.markerFile i).isSome = true)
    (hfound : env.load env.markerFile m = none)
    (hsl : ∀ i, i < m → env.sleepContext i = none) :
    ∃ tr, waitForMarker env (applyOnlyOnce env) fuel = some (none, tr) ∧
      tr.countP Event.isLoad = m + 1 ∧ tr.countP Event.isSleep = m ∧
      (∀ e ∈ tr, e.isSleep = true → e = .sleepContext env.conf.StoragePollInterval) ∧
      tr.filter (fun e => !e.isLog) =
        pollCalls env.markerFile env.conf.StoragePollInterval m := by
  obtain ⟨tr, htr, hl, hs, hc⟩ := pollMarker_ready env (applyOnlyOnce env) m 0 fuel hfuel
    (fun i hi => by simpa using hfail i hi)
    (by simpa using hfound)
    (fun i hi => by simpa using hsl i hi)
  rw [applyOnlyOnce_StoragePollInterval] at hc
  refine ⟨.log .info .waitingForMarkerToBePresent :: tr, ?_, ?_, ?_, ?_, ?_⟩
  · simp [waitForMarker, hm, htr]
  · simp [List.countP_cons, Event.isLoad, hl]
  · simp [List.countP_cons, Event.isSleep, hs]
  · intro e he hse
    have hmem : e ∈ tr.filter (fun e => !e.isLog) := by
      rcases List.mem_cons.mp he with rfl | he
      · simp [Event.isSleep] at hse
      · refine List.mem_filter.mpr ⟨he, ?_⟩
        cases e <;> simp_all [Event.isSleep, Event.isLog]
    rw [hc] at hmem
    exact pollCalls_sleeps env.markerFile env.conf.StoragePollInterval m e hmem hse
  · simp [Event.isLog, ← hc]

theorem applyOnlyOnce_notFoundOnly (env : Env) :
    applyOnlyOnce env.notFoundOnly = applyOnlyOnce env := rfl

/-! ## The marker-file wait: claims C5 to C8 -/

/-- C5: with a marker name set, `n - 1` not-found answers followed by a found
one and no cancelled sleep, the wait makes exactly `n` loads and `n - 1`
sleeps, every sleep of `conf.StoragePollInterval`, loads and sleeps
alternating, and ends ready (no error), for every bound of at least `n` passes. -/
theorem waitForMarker_polls_until_found (env : Env) (n fuel : Nat)
    (hn : 1 ≤ n) (hfuel : n ≤ fuel) (hm : env.markerFile ≠ "")
    (hnf : ∀ i, i + 1 < n → ∃ t, env.load env.markerFile i = some (.notExist t))
    (hfound : env.load env.markerFile (n - 1) = none)
    (hsl : ∀ i, i + 1 < n → env.sleepContext i = none) :
    ∃ tr, waitForMarker env (applyOnlyOnce env) fuel = some (none, tr) ∧
      tr.countP Event.isLoad = n ∧ tr.countP Event.isSleep = n - 1 ∧
      (∀ e ∈ tr, e.isSleep = true → e = .sleepContext env.conf.StoragePollInterval) ∧
      tr.filter (fun e => !e.isLog) =
        pollCalls env.markerFile env.conf.StoragePollInterval (n - 1) := by
  obtain ⟨m, rfl⟩ : ∃ m, n = m + 1 := ⟨n - 1, by omega⟩
  simp only [Nat.add_sub_cancel] at hfound ⊢
  exact waitForMarker_ready env m fuel (by omega) hm
    (fun i hi => by
      obtain ⟨t, ht⟩ := hnf i (by omega)
      simp [ht])
    hfound (fun i hi => hsl i (by omega))

/-- C5 at the scenario of the specification: not-found, not-found, found gives
three loads and two sleeps of 10. -/
theorem waitForMarker_polls_until_found_witness :
    ∃ tr, waitForMarker markerOnThirdPoll (applyOnlyOnce markerOnThirdPoll) 3 = some (none, tr) ∧
      tr.countP Event.isLoad = 3 ∧ tr.countP Event.isSleep = 3 - 1 ∧
      (∀ e ∈ tr, e.isSleep = true → e = .sleepContext 10) ∧
      tr.filter (fun e => !e.isLog) =
        [.load "ready.flag", .sleepContext 10, .load "ready.flag", .sleepContext 10,
          .load "ready.flag"] :=
  waitForMarker_polls_until_found markerOnThirdPoll 3 3 (by decide) (by decide) (by decide)
    (fun i hi => ⟨i, by
      have h2 : i < 2 := by omega
      simp [markerOnThirdPoll, h2]⟩)
    (by decide)
    (fun _ _ => rfl)

/-- C6: with an empty marker name the wait is over at once, ready and without
any event, whatever the storage answers and whatever the interval; the whole
run then returns without a single load or sleep. -/
theorem waitForMarker_empty_marker (fuel : Nat) (env : Env) (conf : Config)
    (hm : env.markerFile = "") :
    waitForMarker env conf fuel = some (none, []) ∧
      ∃ r, runSync fuel env = some r ∧
        r.trace.countP Event.isLoad = 0 ∧ r.trace.countP Event.isSleep = 0 := by
  have hw : ∀ c, waitForMarker env c fuel = some (none, []) := by
    intro c; simp [waitForMarker, hm]
  refine ⟨hw conf, ?_⟩
  cases hb : env.getBackend with
  | some e =>
    exact ⟨_, runSync_backend_error fuel env e hb, by simp [Event.isLoad], by simp [Event.isSleep]⟩
  | none =>
    rcases first_construction_failure env env.conf.LMDBs with hnew | ⟨pre, u, post, e, hl, hpre, hu⟩
    · refine ⟨_, runSync_joined fuel env [] hb (hw _) hnew, ?_, ?_⟩
      · simp [backendCalls, List.countP_cons, Event.isLoad, spawnCalls_no_load,
          activateLiveness_no_load, joinTasks_no_load]
      · simp [backendCalls, List.countP_cons, Event.isSleep, spawnCalls_no_sleep,
          activateLiveness_no_sleep, joinTasks_no_sleep]
    · refine ⟨_, runSync_construction_error fuel env [] pre u post e hb (hw _) hl hpre hu, ?_, ?_⟩
      · simp [backendCalls, List.countP_cons, Event.isLoad, spawnCalls_no_load]
      · simp [backendCalls, List.countP_cons, Event.isSleep, spawnCalls_no_sleep]

/-- C6 at a run whose storage would fail every load: no load is made. -/
theorem waitForMarker_empty_marker_witness :
    waitForMarker { markerWaitCancelled with markerFile := "" } ⟨true, "s3", 0, []⟩ 0 =
        some (none, []) ∧
      ∃ r, runSync 0 { markerWaitCancelled with markerFile := "" } = some r ∧
        r.trace.countP Event.isLoad = 0 ∧ r.trace.countP Event.isSleep = 0 :=
  waitForMarker_empty_marker 0 { markerWaitCancelled with markerFile := "" } _ rfl

/-- C7: a failing load of any kind, not-found or other storage error, never
ends the wait with an error.  After `n - 1` failing loads and a found one,
with no cancelled sleep, the wait ends ready with `n` loads and `n - 1` sleeps
of the poll interval, and its loads and sleeps are the very ones of the run in
which every failure is a not-found. -/
theorem waitForMarker_retries_any_load_error (env : Env) (n fuel : Nat)
    (hn : 1 ≤ n) (hfuel : n ≤ fuel) (hm : env.markerFile ≠ "")
    (hfail : ∀ i, i + 1 < n → (env.load env.markerFile i).isSome = true)
    (hfound : env.load env.markerFile (n - 1) = none)
    (hsl : ∀ i, i + 1 < n → env.sleepContext i = none) :
    ∃ tr tr2, waitForMarker env (applyOnlyOnce env) fuel = some (none, tr) ∧
      waitForMarker env.notFoundOnly (applyOnlyOnce env.notFoundOnly) fuel = some (none, tr2) ∧
      tr.countP Event.isLoad = n ∧ tr.countP Event.isSleep = n - 1 ∧
      tr2.countP Event.isLoad = n ∧ tr2.countP Event.isSleep = n - 1 ∧
      (∀ e ∈ tr, e.isSleep = true → e = .sleepContext env.conf.StoragePollInterval) ∧
      tr.filter (fun e => !e.isLog) = tr2.filter (fun e => !e.isLog) := by
  obtain ⟨m, rfl⟩ : ∃ m, n = m + 1 := ⟨n - 1, by omega⟩
  simp only [Nat.add_sub_cancel] at hfound ⊢
  obtain ⟨tr, htr, hl, hs, hd, hc⟩ := waitForMarker_ready env m fuel (by omega) hm
    (fun i hi => hfail i (by omega)) hfound (fun i hi => hsl i (by omega))
  obtain ⟨tr2, htr2, hl2, hs2, -, hc2⟩ := waitForMarker_ready env.notFoundOnly m fuel
    (by omega) hm
    (fun i hi => by
      have := hfail i (by omega)
      simpa [Env.notFoundOnly] using this)
    (by simpa [Env.notFoundOnly] using hfound)
    (fun i hi => hsl i (by omega))
  exact ⟨tr, tr2, htr, htr2, hl, hs, hl2, hs2, hd, hc.trans hc2.symm⟩

/-- C7 at a run whose first load fails with a storage error and whose second
load is a not-found: three loads, two sleeps, ready. -/
theorem waitForMarker_retries_any_load_error_witness :
    ∃ tr tr2, waitForMarker markerAfterStorageError (applyOnlyOnce markerAfterStorageError) 3 =
        some (none, tr) ∧
      waitForMarker markerAfterStorageError.notFoundOnly
        (applyOnlyOnce markerAfterStorageError.notFoundOnly) 3 = some (none, tr2) ∧
      tr.countP Event.isLoad = 3 ∧ tr.countP Event.isSleep = 3 - 1 ∧
      tr2.countP Event.isLoad = 3 ∧ tr2.countP Event.isSleep = 3 - 1 ∧
      (∀ e ∈ tr, e.isSleep = true → e = .sleepContext 10) ∧
      tr.filter (fun e => !e.isLog) = tr2.filter (fun e => !e.isLog) :=
  waitForMarker_retries_any_load_error markerAfterStorageError 3 3 (by decide) (by decide)
    (by decide)
    (fun i hi => by
      have h2 : i = 0 ∨ i = 1 := by omega
      rcases h2 with rfl | rfl <;> rfl)
    (by decide)
    (fun _ _ => rfl)

/-- C8: when the sleep of pass `n` of the marker wait returns an error (the
context was cancelled), `runSync` returns that error.  The cancelled sleep is
its last call before the deferred `cancel()`: after the `n + 1` loads made so
far there is no further load, no syncer is constructed, no task is spawned or
awaited and no call of the health step is made. -/
theorem runSync_wait_cancelled (env : Env) (n fuel : Nat) (err : GoError)
    (hfuel : n < fuel) (hb : env.getBackend = none) (hm : env.markerFile ≠ "")
    (hfail : ∀ i, i ≤ n → (env.load env.markerFile i).isSome = true)
    (hsl : ∀ i, i < n → env.sleepContext i = none)
    (hcancel : env.sleepContext n = some err) :
    ∃ pre, runSync fuel env =
        some ⟨some err, pre ++ [.sleepContext env.conf.StoragePollInterval, .cancel]⟩ ∧
      pre.countP Event.isLoad = n + 1 ∧ pre.countP Event.isSleep = n ∧
      ∀ e ∈ pre, e.isSyncerNew = false ∧ e.isGo = false ∧ e.isDone = false ∧
        e.isLiveness = false ∧ e ≠ .wait := by
  obtain ⟨pre0, hp, hl, hs⟩ := pollMarker_cancelled env (applyOnlyOnce env) err n 0 fuel hfuel
    (fun i hi => by simpa using hfail i hi)
    (fun i hi => by simpa using hsl i hi)
    (by simpa using hcancel)
  rw [applyOnlyOnce_StoragePollInterval] at hp
  have hw : waitForMarker env (applyOnlyOnce env) fuel =
      some (some err, .log .info .waitingForMarkerToBePresent ::
        (pre0 ++ [.sleepContext env.conf.StoragePollInterval])) := by
    simp [waitForMarker, hm, hp]
  refine ⟨backendCalls ++ .log .info .waitingForMarkerToBePresent :: pre0, ?_, ?_, ?_, ?_⟩
  · rw [runSync_wait_error fuel env err _ hb hw]
    simp
  · simp [backendCalls, List.countP_cons, Event.isLoad, hl]
  · simp [backendCalls, List.countP_cons, Event.isSleep, hs]
  · intro e he
    rcases List.mem_append.mp he with h1 | h2
    · simp only [backendCalls, List.mem_cons, List.mem_singleton, List.not_mem_nil,
        or_false] at h1
      rcases h1 with rfl | rfl | rfl <;>
        simp [Event.isSyncerNew, Event.isGo, Event.isDone, Event.isLiveness]
    · refine gate_event_kinds e ?_
      rcases List.mem_cons.mp h2 with rfl | h3
      · simp [Event.isLog]
      · exact pollMarker_events env (applyOnlyOnce env) fuel 0 (some err) _ hp e
          (List.mem_append_left _ h3)

/-- C8 at a run whose second sleep is cancelled: two loads, then the cancelled
sleep, then nothing but the deferred `cancel()`. -/
theorem runSync_wait_cancelled_witness :
    ∃ pre, runSync 5 markerWaitCancelled =
        some ⟨some .contextCanceled, pre ++ [.sleepContext 10, .cancel]⟩ ∧
      pre.countP Event.isLoad = 1 + 1 ∧ pre.countP Event.isSleep = 1 ∧
      ∀ e ∈ pre, e.isSyncerNew = false ∧ e.isGo = false ∧ e.isDone = false ∧
        e.isLiveness = false ∧ e ≠ .wait :=
  runSync_wait_cancelled markerWaitCancelled 1 5 .contextCanceled (by decide) rfl (by decide)
    (fun i hi => by
      have h2 : i = 0 ∨ i = 1 := by omega
      rcases h2 with rfl | rfl <;> rfl)
    (fun i hi => by
      have h0 : i = 0 := by omega
      subst h0; rfl)
    rfl

/-! ## The supervisor: claims C1 to C4, C9, C10 -/

/-- C1: when the backend is constructed, the marker wait ends ready and every
syncer is constructed, `runSync` returns, and it returns no error if and only
if the `Sync` of every unit returned no error.  In every such run one task is
spawned per unit and one outcome per unit is collected before the return: for
`N` units, `N` spawns and `N` outcomes. -/
theorem runSync_success_iff_all_units_succeed (fuel : Nat) (env : Env) (t2 : List Event)
    (hb : env.getBackend = none)
    (hg : waitForMarker env (applyOnlyOnce env) fuel = some (none, t2))
    (hnew : ∀ u ∈ env.conf.LMDBs, env.syncerNew u = none) :
    ∃ r, runSync fuel env = some r ∧
      (r.err = none ↔ ∀ u ∈ env.conf.LMDBs, env.sync u = none) ∧
      goNames r.trace = env.conf.LMDBs ∧
      (doneNames r.trace).Perm env.conf.LMDBs ∧
      r.trace.countP Event.isGo = env.conf.LMDBs.length ∧
      r.trace.countP Event.isDone = env.conf.LMDBs.length := by
  have hgo := goNames_joinedTrace env t2 (goNames_wait env _ fuel none t2 hg)
  have hdone := doneNames_joinedTrace env t2 (doneNames_wait env _ fuel none t2 hg)
  refine ⟨_, runSync_joined fuel env t2 hb hg hnew, ?_, hgo, ?_, ?_, ?_⟩
  · rw [joinTasks_err_eq_none_iff]
    exact ⟨fun h u hu => h u ((mem_completionOrder env _ u).mpr hu),
      fun h u hu => h u ((mem_completionOrder env _ u).mp hu)⟩
  · show (doneNames (joinedTrace env t2)).Perm env.conf.LMDBs
    rw [hdone]
    exact completionOrder_perm env _
  · show (joinedTrace env t2).countP Event.isGo = env.conf.LMDBs.length
    rw [countP_isGo, hgo]
  · show (joinedTrace env t2).countP Event.isDone = env.conf.LMDBs.length
    rw [countP_isDone, hdone, length_completionOrder]

/-- C1 at three units that all succeed: success, three spawns, three outcomes. -/
theorem runSync_success_iff_all_units_succeed_witness :
    ∃ r, runSync 0 threeUnitsOnlyOnce = some r ∧
      (r.err = none ↔ ∀ u ∈ ["a", "b", "c"], threeUnitsOnlyOnce.sync u = none) ∧
      goNames r.trace = ["a", "b", "c"] ∧
      (doneNames r.trace).Perm ["a", "b", "c"] ∧
      r.trace.countP Event.isGo = 3 ∧
      r.trace.countP Event.isDone = 3 :=
  runSync_success_iff_all_units_succeed 0 threeUnitsOnlyOnce [] rfl rfl (fun _ _ => rfl)

/-- C2 fails as stated: the only spawned task, that of `a`, fails with error 1,
so the outcomes in completion order hold a failure and the first one is
error 1; the construction of the syncer of `b` fails and `runSync` returns
that error, 7, at line 68. -/
theorem first_failure_lost_to_construction_error :
    (runSync 0 firstFailsSecondInvalid).map (fun r => goNames r.trace) = some ["a"] ∧
      completionOrder firstFailsSecondInvalid ["a"] = ["a"] ∧
      firstFailsSecondInvalid.sync "a" = some (.failure 1) ∧
      (runSync 0 firstFailsSecondInvalid).map Run.err = some (some (.failure 7)) := by
  decide

/-- C2 as amended: in a run that reaches `eg.Wait()` (the backend is
constructed, the marker wait ends ready and every syncer is constructed), if
the outcomes in completion order are successes, then a failure `e` of unit
`u`, then anything, `runSync` returns exactly `e`; the outcomes after `u` are
all collected and none of them changes the result. -/
theorem runSync_returns_first_failure (fuel : Nat) (env : Env) (t2 : List Event)
    (pre : List String) (u : String) (post : List String) (e : GoError)
    (hb : env.getBackend = none)
    (hg : waitForMarker env (applyOnlyOnce env) fuel = some (none, t2))
    (hnew : ∀ u ∈ env.conf.LMDBs, env.syncerNew u = none)
    (hord : completionOrder env env.conf.LMDBs = pre ++ u :: post)
    (hpre : ∀ v ∈ pre, env.sync v = none) (hu : env.sync u = some e) :
    ∃ r, runSync fuel env = some r ∧ r.err = some e ∧
      doneNames r.trace = pre ++ u :: post := by
  refine ⟨_, runSync_joined fuel env t2 hb hg hnew, ?_, ?_⟩
  · show (joinTasks env (completionOrder env env.conf.LMDBs) Group.new).1.err = some e
    rw [hord, joinTasks_first_failure env pre u post e hpre hu]
  · show doneNames (joinedTrace env t2) = pre ++ u :: post
    rw [doneNames_joinedTrace env t2 (doneNames_wait env _ fuel none t2 hg), hord]

/-- C2 as amended, at a run where `b` succeeds, then `c` fails with error 2, then `a`
fails with error 1: the result is error 2. -/
theorem runSync_returns_first_failure_witness :
    ∃ r, runSync 0 twoFailures = some r ∧ r.err = some (.failure 2) ∧
      doneNames r.trace = ["b"] ++ "c" :: ["a"] :=
  runSync_returns_first_failure 0 twoFailures [] ["b"] "c" ["a"] (.failure 2) rfl rfl
    (fun _ _ => rfl) (by decide) (by decide) (by decide)

/-- C3 fails as stated: the construction of the syncer of the second unit
fails, `runSync` returns that error, and the task of the first unit has been
spawned before the return. -/
theorem construction_error_after_spawn :
    secondUnitInvalid.syncerNew "b" = some (.failure 7) ∧
      runSync 0 secondUnitInvalid =
        some ⟨some (.failure 7),
          [.getBackend, .log .info .storageInitialised, .setStorage,
            .syncerNew "a", .go "a", .syncerNew "b", .cancel]⟩ ∧
      (runSync 0 secondUnitInvalid).map (fun r => goNames r.trace) = some ["a"] := by
  decide

/-- C3 as amended: a failing backend construction makes `runSync` return that
error with no syncer constructed and no task spawned.  A failing construction
of the syncer of unit `u` makes `runSync` return that error at once; the tasks
spawned at that moment are exactly those of the units before `u` in iteration
order (none when `u` is the first), and no health call and no `eg.Wait()` has
been made. -/
theorem runSync_startup_error (fuel : Nat) (env : Env) :
    (∀ e, env.getBackend = some e →
      ∃ r, runSync fuel env = some r ∧ r.err = some e ∧ goNames r.trace = [] ∧
        r.trace.countP Event.isSyncerNew = 0) ∧
    (∀ t2 pre u post e, env.getBackend = none →
      waitForMarker env (applyOnlyOnce env) fuel = some (none, t2) →
      env.conf.LMDBs = pre ++ u :: post → (∀ v ∈ pre, env.syncerNew v = none) →
      env.syncerNew u = some e →
      ∃ r, runSync fuel env = some r ∧ r.err = some e ∧ goNames r.trace = pre ∧
        r.trace.countP Event.isSyncerNew = pre.length + 1 ∧
        r.trace.countP Event.isLiveness = 0 ∧ Event.wait ∉ r.trace) := by
  constructor
  · intro e hb
    exact ⟨_, runSync_backend_error fuel env e hb, rfl, rfl, by simp [Event.isSyncerNew]⟩
  · intro t2 pre u post e hb hg hl hpre hu
    have hk := waitForMarker_events env _ fuel none t2 hg
    have h2n : t2.countP Event.isSyncerNew = 0 :=
      countP_eq_zero_of_false _ _ (fun x hx => (gate_event_kinds x (hk x hx)).1)
    have h2l : t2.countP Event.isLiveness = 0 :=
      countP_eq_zero_of_false _ _ (fun x hx => (gate_event_kinds x (hk x hx)).2.2.2.1)
    have hsl : (spawnCalls pre).countP Event.isLiveness = 0 :=
      countP_eq_zero_of_false _ _
        (fun x hx => (spawn_event_kinds x (spawnCalls_kinds pre x hx)).2.2.2.1)
    have hsn := countP_isSyncerNew_spawnCalls pre
    refine ⟨_, runSync_construction_error fuel env t2 pre u post e hb hg hl hpre hu, rfl,
      goNames_constructionErrorTrace t2 pre u (goNames_wait env _ fuel none t2 hg), ?_, ?_, ?_⟩
    · simp [backendCalls, List.countP_cons, Event.isSyncerNew, h2n, hsn]
    · simp [backendCalls, List.countP_cons, Event.isLiveness, h2l, hsl]
    · intro hmem
      simp [backendCalls] at hmem
      rcases hmem with h | h
      · exact (gate_event_kinds _ (hk _ h)).2.2.2.2 rfl
      · exact (spawn_event_kinds _ (spawnCalls_kinds pre _ h)).2.2.2.2 rfl

/-- C3 as amended, at a failing backend and at a failing second unit. -/
theorem runSync_startup_error_witness :
    (∃ r, runSync 0 { secondUnitInvalid with getBackend := some (.failure 9) } = some r ∧
      r.err = some (.failure 9) ∧ goNames r.trace = [] ∧
      r.trace.countP Event.isSyncerNew = 0) ∧
    (∃ r, runSync 0 secondUnitInvalid = some r ∧ r.err = some (.failure 7) ∧
      goNames r.trace = ["a"] ∧ r.trace.countP Event.isSyncerNew = ["a"].length + 1 ∧
      r.trace.countP Event.isLiveness = 0 ∧ Event.wait ∉ r.trace) :=
  ⟨(runSync_startup_error 0 { secondUnitInvalid with getBackend := some (.failure 9) }).1
      (.failure 9) rfl,
    (runSync_startup_error 0 secondUnitInvalid).2 [] ["a"] "b" [] (.failure 7) rfl rfl rfl
      (by decide) rfl⟩

/-- C4 fails as stated: the construction of the syncer of the second unit
fails after the task of the first unit was spawned; `runSync` returns without
calling `eg.Wait()` and the task of `a` has not been waited for. -/
theorem return_with_unjoined_task :
    (runSync 0 secondUnitInvalid).map
        (fun r => (r.err, goNames r.trace, doneNames r.trace, r.unjoined,
          decide (Event.wait ∈ r.trace))) =
      some (some (.failure 7), ["a"], [], ["a"], false) := by
  decide

/-- C4 as amended: a return of `runSync` after at least one task was spawned is
one of two.  Either every syncer was constructed, and the return is the one
through `eg.Wait()`: every spawned task has terminated and none is unjoined.
Or the construction of the syncer of a later unit failed: `runSync` returns
that error without `eg.Wait()`, none of the spawned tasks has been waited for,
and the last thing it does is the deferred `cancel()`. -/
theorem runSync_joins_unless_construction_error (fuel : Nat) (env : Env) (r : Run)
    (h : runSync fuel env = some r) (hs : goNames r.trace ≠ []) :
    ((∀ u ∈ env.conf.LMDBs, env.syncerNew u = none) ∧ Event.wait ∈ r.trace ∧
      goNames r.trace = env.conf.LMDBs ∧ (doneNames r.trace).Perm (goNames r.trace) ∧
      r.unjoined = []) ∨
    (∃ pre u post e, env.conf.LMDBs = pre ++ u :: post ∧
      (∀ v ∈ pre, env.syncerNew v = none) ∧ env.syncerNew u = some e ∧
      r.err = some e ∧ Event.wait ∉ r.trace ∧ goNames r.trace = pre ∧
      doneNames r.trace = [] ∧ r.unjoined = pre ∧ r.trace.getLast? = some .cancel) := by
  rcases runSync_cases fuel env r h with ⟨e, -, rfl⟩ | ⟨e, t2, hg, rfl⟩ |
    ⟨t2, pre, u, post, e, hg, hl, hpre, hu, rfl⟩ | ⟨t2, hg, hnew, rfl⟩
  · exact absurd rfl hs
  · refine absurd ?_ hs
    have h3 : goNames [Event.cancel] = [] := rfl
    simp only [goNames_append, goNames_backendCalls, goNames_wait env _ fuel _ t2 hg, h3,
      List.append_nil]
  · right
    have hgo := goNames_constructionErrorTrace t2 pre u (goNames_wait env _ fuel none t2 hg)
    have hdone := doneNames_constructionErrorTrace t2 pre u
      (doneNames_wait env _ fuel none t2 hg)
    have hk := waitForMarker_events env _ fuel none t2 hg
    refine ⟨pre, u, post, e, hl, hpre, hu, rfl, ?_, hgo, hdone, ?_, ?_⟩
    · intro hmem
      simp [constructionErrorTrace, backendCalls] at hmem
      rcases hmem with h | h
      · exact (gate_event_kinds _ (hk _ h)).2.2.2.2 rfl
      · exact (spawn_event_kinds _ (spawnCalls_kinds pre _ h)).2.2.2.2 rfl
    · simp [Run.unjoined, hgo, hdone]
    · simp [constructionErrorTrace]
  · left
    have hgo := goNames_joinedTrace env t2 (goNames_wait env _ fuel none t2 hg)
    have hdone := doneNames_joinedTrace env t2 (doneNames_wait env _ fuel none t2 hg)
    refine ⟨hnew, wait_mem_joinedTrace env t2, hgo, ?_, ?_⟩
    · show (doneNames (joinedTrace env t2)).Perm (goNames (joinedTrace env t2))
      rw [hgo, hdone]
      exact completionOrder_perm env _
    · simp only [Run.unjoined, hgo, hdone]
      refine List.filter_eq_nil_iff.mpr (fun n hn => ?_)
      simp [(mem_completionOrder env env.conf.LMDBs n).mpr hn]

/-- C4 as amended, at the run whose second unit cannot be constructed. -/
theorem runSync_joins_unless_construction_error_witness :
    runSync 0 secondUnitInvalid = some secondUnitInvalidRun ∧
    goNames secondUnitInvalidRun.trace ≠ [] ∧
    (((∀ u ∈ secondUnitInvalid.conf.LMDBs, secondUnitInvalid.syncerNew u = none) ∧
      Event.wait ∈ secondUnitInvalidRun.trace ∧
      goNames secondUnitInvalidRun.trace = secondUnitInvalid.conf.LMDBs ∧
      (doneNames secondUnitInvalidRun.trace).Perm (goNames secondUnitInvalidRun.trace) ∧
      secondUnitInvalidRun.unjoined = []) ∨
    (∃ pre u post e, secondUnitInvalid.conf.LMDBs = pre ++ u :: post ∧
      (∀ v ∈ pre, secondUnitInvalid.syncerNew v = none) ∧
      secondUnitInvalid.syncerNew u = some e ∧
      secondUnitInvalidRun.err = some e ∧ Event.wait ∉ secondUnitInvalidRun.trace ∧
      goNames secondUnitInvalidRun.trace = pre ∧
      doneNames secondUnitInvalidRun.trace = [] ∧ secondUnitInvalidRun.unjoined = pre ∧
      secondUnitInvalidRun.trace.getLast? = some .cancel)) :=
  ⟨rfl, by decide,
    runSync_joins_unless_construction_error 0 secondUnitInvalid secondUnitInvalidRun rfl
      (by decide)⟩

/-- C9: in a run that reaches the health step (backend constructed, marker wait
ready, every syncer constructed) `status.StartHTTPServer` is not called when
`conf.OnlyOnce` is true after lines 32-34, that is when the configuration or
the `--only-once` flag sets it, and is called exactly once otherwise.  With
`--only-once` and three units that all succeed it is never called and
`runSync` returns no error. -/
theorem runSync_http_server_unless_onlyOnce (fuel : Nat) (env : Env) (t2 : List Event)
    (hb : env.getBackend = none)
    (hg : waitForMarker env (applyOnlyOnce env) fuel = some (none, t2))
    (hnew : ∀ u ∈ env.conf.LMDBs, env.syncerNew u = none) :
    (∃ r, runSync fuel env = some r ∧ Event.addBuildInfo ∈ r.trace ∧
      r.trace.count .startHTTPServer =
        if (env.onlyOnce || env.conf.OnlyOnce) = true then 0 else 1) ∧
    (∃ r, runSync 0 threeUnitsOnlyOnce = some r ∧ r.err = none ∧
      goNames r.trace = ["a", "b", "c"] ∧ r.trace.count .startHTTPServer = 0) := by
  constructor
  · refine ⟨_, runSync_joined fuel env t2 hb hg hnew, addBuildInfo_mem_joinedTrace env t2, ?_⟩
    show (joinedTrace env t2).count .startHTTPServer = _
    rw [count_startHTTPServer_joinedTrace env t2 (waitForMarker_events env _ fuel none t2 hg),
      applyOnlyOnce_OnlyOnce]
  · exact ⟨_, rfl, by decide, by decide, by decide⟩

/-- C9 at a continuous run (no flag, `OnlyOnce` unset): the server is started
exactly once. -/
theorem runSync_http_server_unless_onlyOnce_witness :
    (∃ r, runSync 0 twoFailures = some r ∧ Event.addBuildInfo ∈ r.trace ∧
      r.trace.count .startHTTPServer = 1) ∧
    (∃ r, runSync 0 threeUnitsOnlyOnce = some r ∧ r.err = none ∧
      goNames r.trace = ["a", "b", "c"] ∧ r.trace.count .startHTTPServer = 0) :=
  runSync_http_server_unless_onlyOnce 0 twoFailures [] rfl rfl (fun _ _ => rfl)

/-- C10 fails as stated: the task of `a` returns `context.Canceled` before the
task of `b` reports a genuine failure, and `runSync` returns
`context.Canceled`. -/
theorem cancellation_recorded_as_first_failure :
    completionOrder cancelledBeforeFailure cancelledBeforeFailure.conf.LMDBs = ["a", "b"] ∧
      cancelledBeforeFailure.sync "a" = some .contextCanceled ∧
      cancelledBeforeFailure.sync "b" = some (.failure 3) ∧
      (runSync 0 cancelledBeforeFailure).map Run.err = some (some .contextCanceled) := by
  decide

/-- C10 as amended: in a run that reaches `eg.Wait()` (the backend is
constructed, the marker wait ends ready and every syncer is constructed), a
cancellation outcome is as eligible as any other failure: `runSync` returns
`context.Canceled` if and only if the first failing outcome in completion order
is `context.Canceled`, also when a genuine failure is observed after it. -/
theorem runSync_returns_cancellation_iff_first (fuel : Nat) (env : Env) (t2 : List Event)
    (hb : env.getBackend = none)
    (hg : waitForMarker env (applyOnlyOnce env) fuel = some (none, t2))
    (hnew : ∀ u ∈ env.conf.LMDBs, env.syncerNew u = none) :
    ∃ r, runSync fuel env = some r ∧
      (r.err = some .contextCanceled ↔
        ∃ pre u post, completionOrder env env.conf.LMDBs = pre ++ u :: post ∧
          (∀ v ∈ pre, env.sync v = none) ∧ env.sync u = some .contextCanceled) := by
  refine ⟨_, runSync_joined fuel env t2 hb hg hnew, ?_⟩
  show (joinTasks env (completionOrder env env.conf.LMDBs) Group.new).1.err = _ ↔ _
  constructor
  · intro herr
    rcases first_sync_failure env (completionOrder env env.conf.LMDBs) with
      h | ⟨pre, u, post, e, hl, hpre, hu⟩
    · rw [joinTasks_all_success env _ _ h] at herr
      simp [Group.new] at herr
    · rw [hl, joinTasks_first_failure env pre u post e hpre hu] at herr
      simp only [Option.some.injEq] at herr
      subst herr
      exact ⟨pre, u, post, hl, hpre, hu⟩
  · rintro ⟨pre, u, post, hl, hpre, hu⟩
    rw [hl, joinTasks_first_failure env pre u post _ hpre hu]

/-- C10 as amended, at the run in which `a` is cancelled before `b` fails. -/
theorem runSync_returns_cancellation_iff_first_witness :
    ∃ r, runSync 0 cancelledBeforeFailure = some r ∧
      (r.err = some .contextCanceled ↔
        ∃ pre u post, completionOrder cancelledBeforeFailure
            cancelledBeforeFailure.conf.LMDBs = pre ++ u :: post ∧
          (∀ v ∈ pre, cancelledBeforeFailure.sync v = none) ∧
          cancelledBeforeFailure.sync u = some .contextCanceled) :=
  runSync_returns_cancellation_iff_first 0 cancelledBeforeFailure [] rfl rfl (fun _ _ => rfl)

end Lightningstream
